import Mathlib

/-!
Verification of the WAS (Web Application Socket) simple server library
(cm4all-libwas) against its specification.

The repository ships the public headers (`src/include/was/simple.h`,
`src/include/was/apreq.h`); the protocol-engine implementation itself is not
part of the source tree available here, so the engine, codec and body
accounting below are modelled from the specification (each such definition is
marked `Modelled from the spec:`), faithful to its wording in §3–§4 and to
the contracts documented in the header comments.
-/

namespace Was

/-- A wire byte. -/
abbrev Byte := Fin 256

/-- Modelled from the spec: the semantic set of control-packet kinds (§3,
§6 "Packet kind numbers"); `simple.c` with the numeric table is missing from
the tree. -/
inductive PacketKind where
  | NOP | REQUEST | METHOD | URI | SCRIPT_NAME | PATH_INFO | QUERY_STRING
  | HEADER | PARAMETER | REMOTE_HOST | DATA | LENGTH | STOP | PREMATURE
  | STATUS | NO_DATA | END | ABORT | METRIC
  deriving DecidableEq, Repr

/-- Modelled from the spec: a stable numeric identifier for each kind, in the
order of the spec's §6 listing (the reference numbering itself is not
reproducible from the spec; any injective 16-bit assignment realises the
framing). -/
def kindCode : PacketKind → Nat
  | .NOP => 0
  | .REQUEST => 1
  | .METHOD => 2
  | .URI => 3
  | .SCRIPT_NAME => 4
  | .PATH_INFO => 5
  | .QUERY_STRING => 6
  | .HEADER => 7
  | .PARAMETER => 8
  | .REMOTE_HOST => 9
  | .DATA => 10
  | .LENGTH => 11
  | .STOP => 12
  | .PREMATURE => 13
  | .STATUS => 14
  | .NO_DATA => 15
  | .END => 16
  | .ABORT => 17
  | .METRIC => 18

/-- Inverse of `kindCode`: decode a 16-bit kind number. -/
def kindOfCode : Nat → Option PacketKind
  | 0 => some .NOP
  | 1 => some .REQUEST
  | 2 => some .METHOD
  | 3 => some .URI
  | 4 => some .SCRIPT_NAME
  | 5 => some .PATH_INFO
  | 6 => some .QUERY_STRING
  | 7 => some .HEADER
  | 8 => some .PARAMETER
  | 9 => some .REMOTE_HOST
  | 10 => some .DATA
  | 11 => some .LENGTH
  | 12 => some .STOP
  | 13 => some .PREMATURE
  | 14 => some .STATUS
  | 15 => some .NO_DATA
  | 16 => some .END
  | 17 => some .ABORT
  | 18 => some .METRIC
  | _ => none

/-- A control packet: a kind together with its raw payload bytes (§3). -/
structure Packet where
  kind : PacketKind
  payload : List Byte
  deriving DecidableEq, Repr

/-- Maximum payload length accepted by the decoder (spec §4.1: decoding
rejects payload length beyond a fixed maximum; suggested 64 KiB). -/
def maxPayload : Nat := 65536

/-- Little-endian encoding of `v` into `w` bytes. -/
def toLE : Nat → Nat → List Byte
  | 0, _ => []
  | w + 1, v => ⟨v % 256, Nat.mod_lt _ (by decide)⟩ :: toLE w (v / 256)

/-- Little-endian decoding of a byte list. -/
def fromLE : List Byte → Nat
  | [] => 0
  | b :: rest => b.val + 256 * fromLE rest

/-- Modelled from the spec: encode a packet into the fixed wire framing
(§4.1): little-endian 16-bit kind, 16-bit zero pad, 32-bit payload length,
then the payload bytes. -/
def encodePacket (p : Packet) : List Byte :=
  toLE 2 (kindCode p.kind) ++ toLE 2 0 ++ toLE 4 p.payload.length ++ p.payload

/-- Modelled from the spec: decode one whole frame (§4.1, §4.2
`next_packet`): read the 8-byte header, reject unknown kinds, oversized
payloads, and frames whose byte count does not match the declared length. -/
def decodePacket : List Byte → Option Packet
  | k0 :: k1 :: _pad0 :: _pad1 :: l0 :: l1 :: l2 :: l3 :: rest =>
    let len := fromLE [l0, l1, l2, l3]
    if len ≤ maxPayload ∧ rest.length = len then
      match kindOfCode (fromLE [k0, k1]) with
      | some kind => some ⟨kind, rest⟩
      | none => none
    else none
  | _ => none

theorem length_toLE (w v : Nat) : (toLE w v).length = w := by
  induction w generalizing v with
  | zero => rfl
  | succ w ih => simp [toLE, ih]

theorem fromLE_toLE (w v : Nat) : fromLE (toLE w v) = v % 256 ^ w := by
  induction w generalizing v with
  | zero => simp [toLE, fromLE, Nat.mod_one]
  | succ w ih =>
    simp only [toLE, fromLE, ih]
    rw [pow_succ', Nat.mod_mul]

theorem kindCode_lt (k : PacketKind) : kindCode k < 65536 := by
  cases k <;> decide

theorem kindOfCode_kindCode (k : PacketKind) : kindOfCode (kindCode k) = some k := by
  cases k <;> rfl

theorem encodePacket_eq (k : PacketKind) (payload : List Byte) :
    encodePacket ⟨k, payload⟩ =
      ⟨kindCode k % 256, Nat.mod_lt _ (by decide)⟩ ::
      ⟨kindCode k / 256 % 256, Nat.mod_lt _ (by decide)⟩ ::
      ⟨0 % 256, Nat.mod_lt _ (by decide)⟩ ::
      ⟨0 / 256 % 256, Nat.mod_lt _ (by decide)⟩ ::
      ⟨payload.length % 256, Nat.mod_lt _ (by decide)⟩ ::
      ⟨payload.length / 256 % 256, Nat.mod_lt _ (by decide)⟩ ::
      ⟨payload.length / 256 / 256 % 256, Nat.mod_lt _ (by decide)⟩ ::
      ⟨payload.length / 256 / 256 / 256 % 256, Nat.mod_lt _ (by decide)⟩ :: payload := rfl

/-- C1: encoding any control packet (whose payload is legal, i.e. within the
decoder's maximum payload size) into the fixed wire framing and decoding the
resulting byte sequence yields the original packet kind and payload bytes. -/
theorem packet_encode_decode_roundtrip (p : Packet) (h : p.payload.length ≤ maxPayload) :
    decodePacket (encodePacket p) = some p := by
  obtain ⟨k, payload⟩ := p
  have hk := kindCode_lt k
  have hlen : payload.length < 4294967296 := by
    simp only [maxPayload] at h; omega
  rw [encodePacket_eq]
  simp only [decodePacket, fromLE, Fin.val_mk]
  have e2 : (payload.length % 256) + 256 * (payload.length / 256 % 256 +
      256 * (payload.length / 256 / 256 % 256 +
        256 * (payload.length / 256 / 256 / 256 % 256 + 256 * 0))) = payload.length := by
    omega
  have e1 : (kindCode k % 256) + 256 * (kindCode k / 256 % 256 + 256 * 0) = kindCode k := by
    omega
  simp only [e1, e2, kindOfCode_kindCode]
  simp [h]

/-- Witness for C1 at a concrete packet: a HEADER frame with a two-byte
payload round-trips. -/
theorem packet_encode_decode_roundtrip_witness :
    (Packet.mk .HEADER [⟨104, by decide⟩, ⟨105, by decide⟩]).payload.length ≤ maxPayload ∧
      decodePacket (encodePacket ⟨.HEADER, [⟨104, by decide⟩, ⟨105, by decide⟩]⟩) =
        some ⟨.HEADER, [⟨104, by decide⟩, ⟨105, by decide⟩]⟩ :=
  ⟨by decide, packet_encode_decode_roundtrip _ (by decide)⟩

/-- ASCII lowercase of one character. -/
def lowerChar (c : Char) : Char :=
  if 'A' ≤ c ∧ c ≤ 'Z' then Char.ofNat (c.toNat + 32) else c

/-- ASCII lowercase of a string. -/
def asciiLower (s : String) : String := ⟨s.data.map lowerChar⟩

/-- The forbidden response-header names of spec §4.3.2: hop-by-hop headers
and Content-Length, compared case-insensitively. -/
def forbiddenHeaderNames : List String :=
  ["Connection", "Transfer-Encoding", "Content-Length", "Upgrade",
   "Keep-Alive", "Proxy-Connection", "TE", "Trailer"]

/-- Is `name` one of the forbidden names, under case-insensitive ASCII
comparison? -/
def isForbiddenHeader (name : String) : Bool :=
  forbiddenHeaderNames.any fun f => asciiLower name = asciiLower f

/-- Modelled from the spec: the per-request state of a `was_simple` object
(spec §3 "Request State" and "Body Accounting"); `simple.c` with
`struct was_simple` is missing from the tree. -/
structure WasSimple where
  method : Nat := 1
  uri : Option String := none
  scriptName : Option String := none
  pathInfo : Option String := none
  queryString : Option String := none
  remoteHost : Option String := none
  headers : List (String × String) := []
  parameters : List (String × String) := []
  wantMetrics : Bool := false
  hasBodyFlag : Bool := false
  inReceived : Nat := 0
  inAnnounced : Option Nat := none
  inEof : Bool := false
  inStopSent : Bool := false
  inPremature : Bool := false
  outSent : Nat := 0
  outAnnounced : Option Nat := none
  outBegun : Bool := false
  outStopReceived : Bool := false
  statusCode : Option Nat := none
  aborted : Bool := false
  ended : Bool := false
  deriving DecidableEq, Repr

/-- The current request is over (ended or aborted). -/
def WasSimple.finished (w : WasSimple) : Bool := w.ended || w.aborted

/-- A control packet emitted by the engine towards the web server, at the
semantic level (the codec above fixes its wire form). -/
inductive OutPacket where
  | header (name value : String)
  | status (code : Nat)
  | length (n : Nat)
  | data
  | noData
  | stop
  | metric (name : String)
  | endRequest
  | abortRequest
  deriving DecidableEq, Repr

/-- Does this packet carry response metadata (HEADER, STATUS or LENGTH)? -/
def respMetadataPacket : OutPacket → Bool
  | .header _ _ => true
  | .status _ => true
  | .length _ => true
  | _ => false

/-- A control packet received from the web server, at the semantic level. -/
inductive CtrlPacket where
  | nop
  | method (m : Nat)
  | uri (s : String)
  | scriptName (s : String)
  | pathInfo (s : String)
  | queryString (s : String)
  | header (name value : String)
  | parameter (name value : String)
  | remoteHost (s : String)
  | length (n : Nat)
  | data
  | metric
  | request
  | stop
  | premature
  | noData
  | abort
  deriving DecidableEq, Repr

/-- Modelled from the spec: `was_simple_status` (§4.3.2) records the status
code to be sent lazily; valid only before commit (usage error otherwise:
returns false, state unchanged, §7). -/
def was_simple_status (w : WasSimple) (code : Nat) : Bool × WasSimple × List OutPacket :=
  if w.outBegun || w.finished then (false, w, [])
  else (true, { w with statusCode := some code }, [])

/-- Modelled from the spec: `was_simple_set_header` (§4.3.2) sends a HEADER
packet immediately; forbidden names are rejected; usage error after
commit. -/
def was_simple_set_header (w : WasSimple) (name value : String) :
    Bool × WasSimple × List OutPacket :=
  if w.outBegun || w.finished then (false, w, [])
  else if isForbiddenHeader name then (false, w, [])
  else (true, w, [.header name value])

/-- One step of the `copy_all_headers` loop: forward each request header
through `was_simple_set_header`. -/
def copyHeadersLoop (w : WasSimple) : List (String × String) → WasSimple × List OutPacket
  | [] => (w, [])
  | (n, v) :: rest =>
    let r := was_simple_set_header w n v
    let r2 := copyHeadersLoop r.2.1 rest
    (r2.1, r.2.2 ++ r2.2)

/-- Modelled from the spec: `was_simple_copy_all_headers` (§4.3.2) forwards
each request header that is not in the forbidden set. -/
def was_simple_copy_all_headers (w : WasSimple) : Bool × WasSimple × List OutPacket :=
  if w.outBegun || w.finished then (false, w, [])
  else
    let r := copyHeadersLoop w w.headers
    (true, r.1, r.2)

/-- Modelled from the spec: `was_simple_set_length` (§4.3.2) sends a LENGTH
packet and records the announced output length; usage error after commit. -/
def was_simple_set_length (w : WasSimple) (len : Nat) : Bool × WasSimple × List OutPacket :=
  if w.outBegun || w.finished then (false, w, [])
  else (true, { w with outAnnounced := some len }, [.length len])

/-- Modelled from the spec: `was_simple_output_begin` (§4.3.3) commits the
response: emits STATUS (default 200) then DATA and transitions to the
body-out phase; a no-op if already committed. -/
def was_simple_output_begin (w : WasSimple) : Bool × WasSimple × List OutPacket :=
  if w.finished then (false, w, [])
  else if w.outBegun then (true, w, [])
  else
    let code := w.statusCode.getD 200
    (true, { w with outBegun := true, statusCode := some code }, [.status code, .data])

/-- Modelled from the spec: `was_simple_write` (§4.5 output path) commits
the response if necessary, then accounts `n` body bytes; fails on announced
length overflow or after STOP was received. -/
def was_simple_write (w : WasSimple) (n : Nat) : Bool × WasSimple × List OutPacket :=
  if w.finished || w.outStopReceived then (false, w, [])
  else
    let r := was_simple_output_begin w
    let w1 := r.2.1
    match w1.outAnnounced with
    | some total =>
      if total < w1.outSent + n then (false, w1, r.2.2)
      else (true, { w1 with outSent := w1.outSent + n }, r.2.2)
    | none => (true, { w1 with outSent := w1.outSent + n }, r.2.2)

/-- Does the state violate the announced output length (spec §4.3.4)? -/
def lengthViolation (w : WasSimple) : Bool :=
  match w.outAnnounced with
  | some total => w.outSent != total
  | none => false

/-- Modelled from the spec: `was_simple_end` (§4.3.3, §4.3.4 and the header
comment): if the response was never committed, synthesise STATUS (default
204) and NO_DATA; an announced output length that was not met exactly is a
fatal protocol violation and ABORT is sent instead of END. -/
def was_simple_end (w : WasSimple) : Bool × WasSimple × List OutPacket :=
  if w.finished then (false, w, [])
  else if lengthViolation w then (false, { w with aborted := true }, [.abortRequest])
  else if w.outBegun then (true, { w with ended := true }, [.endRequest])
  else
    let code := w.statusCode.getD 204
    (true, { w with ended := true, outBegun := true, statusCode := some code },
      [.status code, .noData, .endRequest])

/-- Modelled from the spec: `was_simple_abort` (§4.3.4) sends ABORT and
marks the engine aborted. -/
def was_simple_abort (w : WasSimple) : Bool × WasSimple × List OutPacket :=
  if w.finished then (false, w, [])
  else (true, { w with aborted := true }, [.abortRequest])

/-- Modelled from the spec: `was_simple_metric` (§4.6) sends one METRIC
packet; permitted at any phase prior to end/abort. -/
def was_simple_metric (w : WasSimple) (name : String) : Bool × WasSimple × List OutPacket :=
  if w.finished then (false, w, [])
  else (true, w, [.metric name])

/-- Modelled from the spec: `was_simple_input_remaining` (§4.5):
`announced - received` if the total request-body size is known, else -1. -/
def was_simple_input_remaining (w : WasSimple) : Int :=
  match w.inAnnounced with
  | some total => (total : Int) - (w.inReceived : Int)
  | none => -1

/-- The outcome of the non-blocking read/poll loop underlying
`was_simple_read` and `was_simple_splice`: either some bytes eventually
arrive, or a descriptor I/O error occurs, or another (protocol) error is
detected while servicing the control channel. -/
inductive ReadEvent where
  | bytes (n : Nat)
  | ioError
  | protocolError
  deriving DecidableEq, Repr

/-- Well-formedness of a read outcome: the pipe delivers at least one byte,
at most the buffer size, and never more than the announced remainder. -/
def readEventOK (w : WasSimple) (len : Nat) (ev : ReadEvent) : Prop :=
  match ev with
  | .bytes n => 0 < n ∧ n ≤ len ∧
      ∀ total, w.inAnnounced = some total → w.inReceived + n ≤ total
  | _ => True

/-- Modelled from the spec: `was_simple_read` (§4.5 input path and the
header comment): returns 0 at end of the request body, -1 on I/O error
(with errno set), -2 on other error; after every successful read
`received += n`, and when `received == announced` the input is marked
EOF. The underlying syscall outcome is the `ReadEvent` argument. -/
def was_simple_read (w : WasSimple) (len : Nat) (ev : ReadEvent) : Int × WasSimple :=
  if w.inEof then (0, w)
  else
    match ev with
    | .ioError => (-1, w)
    | .protocolError => (-2, { w with aborted := true })
    | .bytes n =>
      ((min n len : Nat),
        { w with
            inReceived := w.inReceived + min n len
            inEof := decide (w.inAnnounced = some (w.inReceived + min n len)) })

/-- Modelled from the spec: `was_simple_input_close` (§4.5): if the body is
not yet drained, send STOP, then drain and discard everything still pending
(completing the announced accounting), and mark EOF. -/
def was_simple_input_close (w : WasSimple) : Bool × WasSimple × List OutPacket :=
  if w.finished then (false, w, [])
  else if w.inEof then (true, w, [])
  else
    (true,
      { w with
          inEof := true
          inStopSent := true
          inReceived := w.inAnnounced.getD w.inReceived },
      [.stop])

/-- Well-formedness of a splice outcome: at least one byte, at most
`maxLength`, and within both announced bounds. -/
def spliceEventOK (w : WasSimple) (maxLength : Nat) (ev : ReadEvent) : Prop :=
  match ev with
  | .bytes n => 0 < n ∧ n ≤ maxLength ∧
      (∀ total, w.inAnnounced = some total → w.inReceived + n ≤ total) ∧
      (∀ total, w.outAnnounced = some total → w.outSent + n ≤ total)
  | _ => True

/-- Modelled from the spec: `was_simple_splice` (§4.5 and the header
comment): copy up to `maxLength` bytes from the request body to the
response body; returns the number of bytes copied, 0 at end of the request
body, -1 on I/O error, -2 on other error. -/
def was_simple_splice (w : WasSimple) (maxLength : Nat) (ev : ReadEvent) :
    Int × WasSimple × List OutPacket :=
  if w.finished || w.outStopReceived then (-2, w, [])
  else if w.inEof then (0, w, [])
  else
    match ev with
    | .ioError => (-1, w, [])
    | .protocolError => (-2, { w with aborted := true }, [])
    | .bytes n =>
      let r := was_simple_output_begin w
      let w1 := r.2.1
      let m := min n maxLength
      ((m : Nat),
        { w1 with
            inReceived := w1.inReceived + m
            inEof := decide (w1.inAnnounced = some (w1.inReceived + m))
            outSent := w1.outSent + m },
        r.2.2)

/-- Modelled from the spec: servicing of asynchronous control packets
during the body phases (§4.3.5): STOP aborts the output, PREMATURE puts the
input at EOF, METRIC sets the flag, NOP is ignored, anything else (or
ABORT) aborts the request. -/
def handleControl (w : WasSimple) (p : CtrlPacket) : WasSimple :=
  match p with
  | .stop => { w with outStopReceived := true }
  | .premature =>
    { w with
        inEof := true
        inPremature := true
        inReceived := w.inAnnounced.getD w.inReceived }
  | .metric => { w with wantMetrics := true }
  | .nop => w
  | _ => { w with aborted := true }

/-- An application API call on the engine, with the outcome of any
underlying body I/O given by a `ReadEvent`. -/
inductive Op where
  | status (code : Nat)
  | setHeader (name value : String)
  | copyAllHeaders
  | setLength (n : Nat)
  | outputBegin
  | write (n : Nat)
  | read (len : Nat) (ev : ReadEvent)
  | splice (maxLength : Nat) (ev : ReadEvent)
  | inputClose
  | endRequest
  | abortRequest
  | metric (name : String)
  deriving DecidableEq, Repr

/-- One event in the life of a request: an application call, or a control
packet arriving from the peer (serviced during a poll). -/
inductive Event where
  | call (op : Op)
  | recv (p : CtrlPacket)
  deriving DecidableEq, Repr

/-- Execute one application call: the successor state and the control
packets emitted. -/
def execOp (w : WasSimple) : Op → WasSimple × List OutPacket
  | .status c => (was_simple_status w c).2
  | .setHeader n v => (was_simple_set_header w n v).2
  | .copyAllHeaders => (was_simple_copy_all_headers w).2
  | .setLength n => (was_simple_set_length w n).2
  | .outputBegin => (was_simple_output_begin w).2
  | .write n => (was_simple_write w n).2
  | .read len ev => ((was_simple_read w len ev).2, [])
  | .splice m ev => (was_simple_splice w m ev).2
  | .inputClose => (was_simple_input_close w).2
  | .endRequest => (was_simple_end w).2
  | .abortRequest => (was_simple_abort w).2
  | .metric name => (was_simple_metric w name).2

/-- One step of a request trace. -/
def step (w : WasSimple) : Event → WasSimple × List OutPacket
  | .call op => execOp w op
  | .recv p => (handleControl w p, [])

/-- Run a request trace, collecting all emitted control packets. -/
def run (w : WasSimple) : List Event → WasSimple × List OutPacket
  | [] => (w, [])
  | e :: rest =>
    let r := step w e
    let r2 := run r.1 rest
    (r2.1, r.2 ++ r2.2)

/-- The empty request state created on accept (spec §3: reset to empty on
each accept, method defaults to GET). -/
def initState : WasSimple := {}

/-- Modelled from the spec: the effect of one metadata packet during the
header phase of accept (§4.3.1): each packet accumulates into the request
state; HEADER and PARAMETER append to the ordered sequences. -/
def applyHeaderPacket (w : WasSimple) : CtrlPacket → WasSimple
  | .nop => w
  | .method m => { w with method := m }
  | .uri s => { w with uri := some s }
  | .scriptName s => { w with scriptName := some s }
  | .pathInfo s => { w with pathInfo := some s }
  | .queryString s => { w with queryString := some s }
  | .header n v => { w with headers := w.headers ++ [(n, v)] }
  | .parameter n v => { w with parameters := w.parameters ++ [(n, v)] }
  | .remoteHost s => { w with remoteHost := some s }
  | .length n => { w with inAnnounced := some n, hasBodyFlag := true }
  | .data => { w with hasBodyFlag := true }
  | .metric => { w with wantMetrics := true }
  | .premature => { w with inEof := true, inPremature := true }
  | .noData => { w with inEof := true, hasBodyFlag := false }
  | .request => w
  | .stop => w
  | .abort => w

/-- Modelled from the spec: the accept loop (§4.3.1) consumes packets until
a REQUEST packet arrives, accumulating metadata; EOF (out of packets), STOP
or ABORT before REQUEST terminates without a request. -/
def acceptLoop (w : WasSimple) : List CtrlPacket → Option WasSimple
  | [] => none
  | .request :: _ => some w
  | .stop :: _ => none
  | .abort :: _ => none
  | p :: rest => acceptLoop (applyHeaderPacket w p) rest

/-- Modelled from the spec: `was_simple_accept` (§4.3.1) on a fresh state,
driven by the given incoming packet stream. -/
def was_simple_accept (pkts : List CtrlPacket) : Option WasSimple :=
  acceptLoop initState pkts

/-- Modelled from the spec: a header/parameter iterator (§4.4): a view over
the ordered sequence of pairs, advanced by `was_simple_iterator_next`. -/
structure WasSimpleIterator where
  remaining : List (String × String)
  deriving DecidableEq, Repr

/-- Modelled from the spec: `was_simple_get_header_iterator` iterates all
request headers in insertion order. -/
def was_simple_get_header_iterator (w : WasSimple) : WasSimpleIterator :=
  ⟨w.headers⟩

/-- Modelled from the spec: `was_simple_iterator_next` yields the next
(name, value) pair, or none when exhausted. -/
def was_simple_iterator_next (it : WasSimpleIterator) :
    Option ((String × String) × WasSimpleIterator) :=
  match it.remaining with
  | [] => none
  | p :: rest => some (p, ⟨rest⟩)

/-- The sequence of pairs produced by exhausting an iterator. -/
def exhaustIterator : WasSimpleIterator → List (String × String)
  | ⟨[]⟩ => []
  | ⟨p :: rest⟩ => p :: exhaustIterator ⟨rest⟩

/-- The (name, value) pairs of the HEADER packets received before the
REQUEST (or STOP/ABORT) packet, in arrival order. -/
def receivedHeaders : List CtrlPacket → List (String × String)
  | [] => []
  | .request :: _ => []
  | .stop :: _ => []
  | .abort :: _ => []
  | .header n v :: rest => (n, v) :: receivedHeaders rest
  | _ :: rest => receivedHeaders rest

/-- C3: if an output length was declared via `set_length` and the number of
body bytes written when `end()` is called differs from it, `end()` sends
ABORT instead of END and returns false. -/
theorem end_length_mismatch_aborts (w : WasSimple) (total : Nat)
    (hfin : w.finished = false) (hann : w.outAnnounced = some total)
    (hne : w.outSent ≠ total) :
    (was_simple_end w).1 = false ∧
    (was_simple_end w).2.2 = [.abortRequest] ∧
    OutPacket.endRequest ∉ (was_simple_end w).2.2 ∧
    (was_simple_end w).2.1.aborted = true := by
  have hv : lengthViolation w = true := by
    simp [lengthViolation, hann, hne]
  simp [was_simple_end, hfin, hv]

/-- Witness for C3: a request that declared length 10 but wrote only 5
bytes; `end` emits ABORT, not END, and fails. -/
theorem end_length_mismatch_aborts_witness :
    (({ outAnnounced := some 10, outSent := 5 } : WasSimple)).finished = false ∧
    (was_simple_end { outAnnounced := some 10, outSent := 5 }).1 = false ∧
    (was_simple_end { outAnnounced := some 10, outSent := 5 }).2.2 = [.abortRequest] ∧
    OutPacket.endRequest ∉ (was_simple_end { outAnnounced := some 10, outSent := 5 }).2.2 ∧
    (was_simple_end { outAnnounced := some 10, outSent := 5 }).2.1.aborted = true :=
  ⟨rfl, end_length_mismatch_aborts _ 10 rfl rfl (by decide)⟩

/-- C4: if the application never commits the response (no status set, no
commit, no body write, hence no length declared either) then `end()` emits
exactly STATUS 204, NO_DATA, END. -/
theorem end_uncommitted_synthesises_204 (w : WasSimple)
    (hstatus : w.statusCode = none) (hbegun : w.outBegun = false)
    (hann : w.outAnnounced = none) (hfin : w.finished = false) :
    (was_simple_end w).1 = true ∧
    (was_simple_end w).2.2 = [.status 204, .noData, .endRequest] := by
  have hv : lengthViolation w = false := by simp [lengthViolation, hann]
  simp [was_simple_end, hstatus, hbegun, hfin, hv]

/-- Witness for C4: on the fresh request state, `end` emits STATUS 204,
NO_DATA, END. -/
theorem end_uncommitted_synthesises_204_witness :
    initState.statusCode = none ∧
    (was_simple_end initState).1 = true ∧
    (was_simple_end initState).2.2 = [.status 204, .noData, .endRequest] :=
  ⟨rfl, end_uncommitted_synthesises_204 initState rfl rfl rfl rfl⟩

/-- C6: `input_remaining` is `announced - received` when announced and -1
when unknown; a successful read of `n` bytes increases `received` by
exactly `n`, and when `received` reaches `announced` the input is marked
EOF so that reads return 0. -/
theorem input_accounting (w : WasSimple) :
    (∀ total, w.inAnnounced = some total →
      was_simple_input_remaining w = (total : Int) - (w.inReceived : Int)) ∧
    (w.inAnnounced = none → was_simple_input_remaining w = -1) ∧
    (∀ len n, w.inEof = false → 0 < n → n ≤ len →
      (was_simple_read w len (.bytes n)).1 = (n : Int) ∧
      (was_simple_read w len (.bytes n)).2.inReceived = w.inReceived + n ∧
      (w.inAnnounced = some (w.inReceived + n) →
        (was_simple_read w len (.bytes n)).2.inEof = true ∧
        ∀ len2 ev2, (was_simple_read (was_simple_read w len (.bytes n)).2 len2 ev2).1 = 0)) := by
  refine ⟨?_, ?_, ?_⟩
  · intro total h
    simp [was_simple_input_remaining, h]
  · intro h
    simp [was_simple_input_remaining, h]
  · intro len n heof hn hnl
    have hm : min n len = n := Nat.min_eq_left hnl
    refine ⟨by simp [was_simple_read, heof, hm], by simp [was_simple_read, heof, hm], ?_⟩
    intro hann
    have h1 : (was_simple_read w len (.bytes n)).2.inEof = true := by
      simp [was_simple_read, heof, hm, hann]
    refine ⟨h1, fun len2 ev2 => ?_⟩
    generalize (was_simple_read w len (.bytes n)).2 = w2 at h1 ⊢
    simp [was_simple_read, h1]

/-- Witness for C6: with 2 announced bytes, reading 2 bytes returns 2,
makes `received` 2, marks EOF and a further read returns 0. -/
theorem input_accounting_witness :
    (was_simple_read { inAnnounced := some 2 } 8 (.bytes 2)).1 = 2 ∧
    (was_simple_read (was_simple_read { inAnnounced := some 2 } 8 (.bytes 2)).2 8
      (.bytes 1)).1 = 0 :=
  ⟨((input_accounting { inAnnounced := some 2 }).2.2 8 2 rfl (by decide) (by decide)).1,
    ((((input_accounting { inAnnounced := some 2 }).2.2 8 2 rfl (by decide)
      (by decide)).2.2 rfl).2 8 (.bytes 1))⟩

set_option linter.unnecessarySeqFocus false in
/-- C9: `was_simple_read` returns -1 exactly on a descriptor I/O error, -2
exactly on another (protocol) error, and reports end of the request body as
0, never as an error code. -/
theorem read_error_codes (w : WasSimple) (len : Nat) (ev : ReadEvent)
    (hok : readEventOK w len ev) :
    ((was_simple_read w len ev).1 = -1 ↔ (w.inEof = false ∧ ev = .ioError)) ∧
    ((was_simple_read w len ev).1 = -2 ↔ (w.inEof = false ∧ ev = .protocolError)) ∧
    (w.inEof = true → (was_simple_read w len ev).1 = 0) ∧
    ((was_simple_read w len ev).1 = 0 → w.inEof = true) := by
  cases hw : w.inEof with
  | true => simp [was_simple_read, hw]
  | false =>
    cases ev with
    | bytes n =>
      obtain ⟨hn, hnl, _⟩ := hok
      have hm : min n len = n := Nat.min_eq_left hnl
      refine ⟨?_, ?_, ?_, ?_⟩ <;> simp only [was_simple_read, hw, hm] <;>
        simp <;> try omega
    | ioError => simp [was_simple_read, hw]
    | protocolError => simp [was_simple_read, hw]

/-- Witness for C9: with an empty buffer state, an I/O error yields -1. -/
theorem read_error_codes_witness :
    readEventOK initState 4 .ioError ∧
    ((was_simple_read initState 4 .ioError).1 = -1 ↔
      (initState.inEof = false ∧ ReadEvent.ioError = ReadEvent.ioError)) :=
  ⟨trivial, (read_error_codes initState 4 .ioError trivial).1⟩

theorem output_begin_preserves_body (w : WasSimple) :
    ((was_simple_output_begin w).2.1).inReceived = w.inReceived ∧
    ((was_simple_output_begin w).2.1).outSent = w.outSent ∧
    ((was_simple_output_begin w).2.1).inAnnounced = w.inAnnounced := by
  cases hf : w.finished <;> cases hb : w.outBegun <;>
    simp [was_simple_output_begin, hf, hb]

/-- C10: a splice returns at most `maxLength`; 0 only at the end of the
request body; a positive result `n` means exactly `n` bytes were moved from
the request body to the response body; the only other results are -1 (I/O
error) and -2 (other error). -/
theorem splice_bounds (w : WasSimple) (maxLength : Nat) (ev : ReadEvent)
    (hok : spliceEventOK w maxLength ev) :
    (was_simple_splice w maxLength ev).1 ≤ (maxLength : Int) ∧
    ((was_simple_splice w maxLength ev).1 = 0 → w.inEof = true) ∧
    (∀ n : Nat, 0 < n → (was_simple_splice w maxLength ev).1 = (n : Int) →
      (was_simple_splice w maxLength ev).2.1.inReceived = w.inReceived + n ∧
      (was_simple_splice w maxLength ev).2.1.outSent = w.outSent + n) ∧
    ((was_simple_splice w maxLength ev).1 < 0 →
      ((was_simple_splice w maxLength ev).1 = -1 ∨
        (was_simple_splice w maxLength ev).1 = -2)) := by
  by_cases hg : (w.finished || w.outStopReceived) = true
  · have hr : (was_simple_splice w maxLength ev).1 = -2 := by
      simp [was_simple_splice, hg]
    refine ⟨by rw [hr]; omega, ?_, ?_, by intro h; rw [hr]; omega⟩
    · intro h
      rw [hr] at h
      exact absurd h (by omega)
    · intro k hk h
      rw [hr] at h
      exact absurd h (by omega)
  · rw [Bool.or_eq_true] at hg
    push_neg at hg
    simp only [Bool.not_eq_true] at hg
    cases hweof : w.inEof with
    | true =>
      have hr : (was_simple_splice w maxLength ev).1 = 0 := by
        simp [was_simple_splice, hg.1, hg.2, hweof]
      refine ⟨by rw [hr]; omega, fun _ => rfl, ?_, by intro h; rw [hr] at h; omega⟩
      intro k hk h
      rw [hr] at h
      exact absurd h (by omega)
    | false =>
      cases ev with
      | ioError =>
        have hr : (was_simple_splice w maxLength .ioError).1 = -1 := by
          simp [was_simple_splice, hg.1, hg.2, hweof]
        refine ⟨by rw [hr]; omega, ?_, ?_, by intro h; rw [hr]; omega⟩
        · intro h
          rw [hr] at h
          exact absurd h (by omega)
        · intro k hk h
          rw [hr] at h
          exact absurd h (by omega)
      | protocolError =>
        have hr : (was_simple_splice w maxLength .protocolError).1 = -2 := by
          simp [was_simple_splice, hg.1, hg.2, hweof]
        refine ⟨by rw [hr]; omega, ?_, ?_, by intro h; rw [hr]; omega⟩
        · intro h
          rw [hr] at h
          exact absurd h (by omega)
        · intro k hk h
          rw [hr] at h
          exact absurd h (by omega)
      | bytes n =>
        obtain ⟨hn, hnm, _, _⟩ := hok
        have hm : min n maxLength = n := Nat.min_eq_left hnm
        obtain ⟨h1, h2, _⟩ := output_begin_preserves_body w
        have hr : (was_simple_splice w maxLength (.bytes n)).1 = (n : Int) := by
          simp [was_simple_splice, hg.1, hg.2, hweof, hm]
        have hst1 : (was_simple_splice w maxLength (.bytes n)).2.1.inReceived
            = w.inReceived + n := by
          simp [was_simple_splice, hg.1, hg.2, hweof, hm, h1]
        have hst2 : (was_simple_splice w maxLength (.bytes n)).2.1.outSent
            = w.outSent + n := by
          simp [was_simple_splice, hg.1, hg.2, hweof, hm, h2]
        refine ⟨by rw [hr]; omega, ?_, ?_, by intro h; rw [hr] at h; omega⟩
        · intro h
          rw [hr] at h
          exact absurd h (by omega)
        · intro k hk h
          rw [hr] at h
          have hkn : k = n := by omega
          subst hkn
          exact ⟨hst1, hst2⟩

/-- Witness for C10: splicing 3 bytes with an 8-byte cap moves exactly 3
bytes from the input to the output accounting. -/
theorem splice_bounds_witness :
    spliceEventOK initState 8 (.bytes 3) ∧
    (was_simple_splice initState 8 (.bytes 3)).2.1.inReceived = initState.inReceived + 3 ∧
    (was_simple_splice initState 8 (.bytes 3)).2.1.outSent = initState.outSent + 3 :=
  ⟨⟨by decide, by decide, fun t h => by simp [initState] at h,
      fun t h => by simp [initState] at h⟩,
    (splice_bounds initState 8 (.bytes 3)
      ⟨by decide, by decide, fun t h => by simp [initState] at h,
        fun t h => by simp [initState] at h⟩).2.2.1 3 (by decide) (by decide)⟩

theorem copyHeadersLoop_state (w : WasSimple) (l : List (String × String)) :
    (copyHeadersLoop w l).1 = w := by
  induction l generalizing w with
  | nil => rfl
  | cons p rest ih =>
    obtain ⟨n, v⟩ := p
    simp only [copyHeadersLoop, was_simple_set_header]
    split_ifs <;> simp [ih]

theorem copyHeadersLoop_emits (w : WasSimple) (hb : w.outBegun = false)
    (hf : w.finished = false) (l : List (String × String)) :
    (copyHeadersLoop w l).2 =
      (l.filter fun p => !isForbiddenHeader p.1).map fun p => OutPacket.header p.1 p.2 := by
  induction l generalizing w with
  | nil => rfl
  | cons p rest ih =>
    obtain ⟨n, v⟩ := p
    by_cases hforb : isForbiddenHeader n = true <;>
      simp [copyHeadersLoop, was_simple_set_header, hb, hf, hforb, ih w hb hf,
        List.filter_cons]

/-- C7: `copy_all_headers` forwards exactly those request headers whose
name is not, under case-insensitive ASCII comparison, one of the forbidden
hop-by-hop names or Content-Length; in particular it never emits a HEADER
packet with a forbidden name. -/
theorem copy_all_headers_filters (w : WasSimple) (hb : w.outBegun = false)
    (hf : w.finished = false) :
    (was_simple_copy_all_headers w).1 = true ∧
    (was_simple_copy_all_headers w).2.2 =
      (w.headers.filter fun p => !isForbiddenHeader p.1).map
        (fun p => OutPacket.header p.1 p.2) ∧
    (∀ name value, OutPacket.header name value ∈ (was_simple_copy_all_headers w).2.2 →
      isForbiddenHeader name = false) := by
  have hloop := copyHeadersLoop_emits w hb hf w.headers
  have hdef : (was_simple_copy_all_headers w).2.2 = (copyHeadersLoop w w.headers).2 := by
    simp [was_simple_copy_all_headers, hb, hf]
  refine ⟨by simp [was_simple_copy_all_headers, hb, hf], by rw [hdef, hloop], ?_⟩
  intro name value hmem
  rw [hdef, hloop] at hmem
  simp only [List.mem_map, List.mem_filter] at hmem
  obtain ⟨⟨pn, pv⟩, ⟨_, hkeep⟩, heq⟩ := hmem
  cases heq
  simpa using hkeep

/-- Witness for C7: a state holding a Content-Type and a Connection header;
copying forwards only the former, and the forbidden name test on
"Connection" (any case) is positive. -/
theorem copy_all_headers_filters_witness :
    ({ headers := [("Content-Type", "text/plain"), ("cOnNeCtIoN", "close")] } :
      WasSimple).outBegun = false ∧
    (∀ name value,
        OutPacket.header name value ∈
          (was_simple_copy_all_headers
            { headers := [("Content-Type", "text/plain"), ("cOnNeCtIoN", "close")] }).2.2 →
        isForbiddenHeader name = false) ∧
    isForbiddenHeader "cOnNeCtIoN" = true :=
  ⟨rfl,
    (copy_all_headers_filters
      { headers := [("Content-Type", "text/plain"), ("cOnNeCtIoN", "close")] } rfl rfl).2.2,
    by decide⟩

set_option linter.unnecessarySeqFocus false in
theorem step_outBegun (w : WasSimple) (e : Event) (hb : w.outBegun = true) :
    (step w e).1.outBegun = true ∧ ∀ p ∈ (step w e).2, respMetadataPacket p = false := by
  cases e with
  | recv p =>
    cases p <;> simp [step, handleControl, hb]
  | call op =>
    cases op with
    | status c => simp [step, execOp, was_simple_status, hb]
    | setHeader n v => simp [step, execOp, was_simple_set_header, hb]
    | copyAllHeaders => simp [step, execOp, was_simple_copy_all_headers, hb]
    | setLength n => simp [step, execOp, was_simple_set_length, hb]
    | outputBegin =>
      cases hf : w.finished <;>
        simp [step, execOp, was_simple_output_begin, hb, hf]
    | write n =>
      cases hf : w.finished <;> cases hs : w.outStopReceived <;>
        cases ha : w.outAnnounced <;>
          simp [step, execOp, was_simple_write, was_simple_output_begin, hf, hs, ha, hb] <;>
          split_ifs <;> simp [hb]
    | read len ev =>
      cases he : w.inEof <;> cases ev <;>
        simp [step, execOp, was_simple_read, he, hb]
    | splice m ev =>
      cases hf : w.finished <;> cases hs : w.outStopReceived <;>
        cases he : w.inEof <;> cases ev <;>
          simp [step, execOp, was_simple_splice, was_simple_output_begin, hf, hs, he, hb]
    | inputClose =>
      cases hf : w.finished <;> cases he : w.inEof <;>
        simp [step, execOp, was_simple_input_close, hf, he, hb, respMetadataPacket]
    | endRequest =>
      cases hf : w.finished <;> cases hv : lengthViolation w <;>
        simp [step, execOp, was_simple_end, hf, hv, hb, respMetadataPacket]
    | abortRequest =>
      cases hf : w.finished <;>
        simp [step, execOp, was_simple_abort, hf, hb, respMetadataPacket]
    | metric name =>
      cases hf : w.finished <;>
        simp [step, execOp, was_simple_metric, hf, hb, respMetadataPacket]

theorem run_outBegun (evs : List Event) : ∀ w, w.outBegun = true →
    (run w evs).1.outBegun = true ∧ ∀ p ∈ (run w evs).2, respMetadataPacket p = false := by
  induction evs with
  | nil =>
    intro w hb
    simp [run, hb]
  | cons e rest ih =>
    intro w hb
    obtain ⟨hb1, hp1⟩ := step_outBegun w e hb
    obtain ⟨hb2, hp2⟩ := ih (step w e).1 hb1
    refine ⟨by simpa [run] using hb2, ?_⟩
    intro p hp
    simp only [run, List.mem_append] at hp
    rcases hp with h | h
    · exact hp1 p h
    · exact hp2 p h

/-- C2: once the response is committed, no HEADER, STATUS or LENGTH packet
is ever emitted again for this request, whatever the application calls and
whatever control packets arrive; and `set_header`, `status` and
`set_length` each return false and leave the state unchanged. -/
theorem after_commit_no_metadata (w : WasSimple) (hb : w.outBegun = true)
    (evs : List Event) :
    (∀ p ∈ (run w evs).2, respMetadataPacket p = false) ∧
    (∀ name value,
      was_simple_set_header (run w evs).1 name value = (false, (run w evs).1, [])) ∧
    (∀ code, was_simple_status (run w evs).1 code = (false, (run w evs).1, [])) ∧
    (∀ n, was_simple_set_length (run w evs).1 n = (false, (run w evs).1, [])) := by
  obtain ⟨hb2, hp⟩ := run_outBegun evs w hb
  refine ⟨hp, ?_, ?_, ?_⟩
  · intro name value
    simp [was_simple_set_header, hb2]
  · intro code
    simp [was_simple_status, hb2]
  · intro n
    simp [was_simple_set_length, hb2]

/-- Witness for C2: in a committed state, after a metric call and a write,
`set_header` fails and changes nothing. -/
theorem after_commit_no_metadata_witness :
    ({ outBegun := true } : WasSimple).outBegun = true ∧
    was_simple_set_header
        (run { outBegun := true } [.call (.metric "m"), .call (.write 3)]).1 "X-Foo" "bar" =
      (false, (run { outBegun := true } [.call (.metric "m"), .call (.write 3)]).1, []) ∧
    (∀ p ∈ (run { outBegun := true } [.call (.metric "m"), .call (.write 3)]).2,
      respMetadataPacket p = false) :=
  ⟨rfl,
    (after_commit_no_metadata { outBegun := true } rfl
      [.call (.metric "m"), .call (.write 3)]).2.1 "X-Foo" "bar",
    (after_commit_no_metadata { outBegun := true } rfl
      [.call (.metric "m"), .call (.write 3)]).1⟩

/-- The input side was halted early: PREMATURE was received from the peer,
or STOP was sent by the engine. -/
def inputHalted (w : WasSimple) : Prop :=
  w.inPremature = true ∨ w.inStopSent = true

/-- Invariant: a halted input is at EOF. -/
def inputHaltedEof (w : WasSimple) : Prop := inputHalted w → w.inEof = true

theorem step_inEof_monotone (w : WasSimple) (e : Event) (he : w.inEof = true) :
    (step w e).1.inEof = true := by
  cases e with
  | recv p => cases p <;> simp [step, handleControl, he]
  | call op =>
    cases op with
    | status c =>
      cases hg : w.outBegun <;> cases hf : w.finished <;>
        simp [step, execOp, was_simple_status, hg, hf, he]
    | setHeader n v =>
      cases hg : w.outBegun <;> cases hf : w.finished <;>
        simp only [step, execOp, was_simple_set_header, hg, hf] <;>
        split_ifs <;> simp [he]
    | copyAllHeaders =>
      cases hg : w.outBegun <;> cases hf : w.finished <;>
        simp [step, execOp, was_simple_copy_all_headers, copyHeadersLoop_state, hg, hf, he]
    | setLength n =>
      cases hg : w.outBegun <;> cases hf : w.finished <;>
        simp [step, execOp, was_simple_set_length, hg, hf, he]
    | outputBegin =>
      cases hf : w.finished <;> cases hb : w.outBegun <;>
        simp [step, execOp, was_simple_output_begin, hf, hb, he]
    | write n =>
      cases hf : w.finished <;> cases hs : w.outStopReceived <;>
        cases hb : w.outBegun <;> cases ha : w.outAnnounced <;>
          simp [step, execOp, was_simple_write, was_simple_output_begin,
            hf, hs, hb, ha, he] <;>
          split_ifs <;> simp [he]
    | read len ev =>
      simp [step, execOp, was_simple_read, he]
    | splice m ev =>
      cases hf : w.finished <;> cases hs : w.outStopReceived <;>
        simp [step, execOp, was_simple_splice, hf, hs, he]
    | inputClose =>
      cases hf : w.finished <;>
        simp [step, execOp, was_simple_input_close, hf, he]
    | endRequest =>
      cases hf : w.finished <;> cases hv : lengthViolation w <;>
        cases hb : w.outBegun <;>
          simp [step, execOp, was_simple_end, hf, hv, hb, he]
    | abortRequest =>
      cases hf : w.finished <;> simp [step, execOp, was_simple_abort, hf, he]
    | metric name =>
      cases hf : w.finished <;> simp [step, execOp, was_simple_metric, hf, he]

theorem run_inEof_monotone (evs : List Event) : ∀ w : WasSimple, w.inEof = true →
    (run w evs).1.inEof = true := by
  induction evs with
  | nil => intro w he; simpa [run] using he
  | cons e rest ih =>
    intro w he
    simpa [run] using ih (step w e).1 (step_inEof_monotone w e he)

theorem step_inputHaltedEof (w : WasSimple) (e : Event) (h : inputHaltedEof w) :
    inputHaltedEof (step w e).1 := by
  cases heq : w.inEof with
  | true =>
    intro _
    exact step_inEof_monotone w e heq
  | false =>
    have hp : w.inPremature = false := by
      cases hp : w.inPremature
      · rfl
      · have := h (Or.inl hp)
        simp [this] at heq
    have hs0 : w.inStopSent = false := by
      cases hs0 : w.inStopSent
      · rfl
      · have := h (Or.inr hs0)
        simp [this] at heq
    intro hh2
    cases e with
    | recv p =>
      cases p <;>
        simp_all [step, handleControl, inputHalted]
    | call op =>
      cases op with
      | status c =>
        cases hg : w.outBegun <;> cases hf : w.finished <;>
          simp_all [step, execOp, was_simple_status, inputHalted]
      | setHeader n v =>
        cases hg : w.outBegun <;> cases hf : w.finished <;>
          simp_all only [step, execOp, was_simple_set_header, Bool.or_self,
            Bool.or_false, Bool.false_or, Bool.or_true, Bool.true_or,
            if_true, if_false, Bool.false_eq_true] <;>
          first
            | (split_ifs at hh2 <;> simp_all [inputHalted])
            | simp_all [inputHalted]
      | copyAllHeaders =>
        cases hg : w.outBegun <;> cases hf : w.finished <;>
          simp_all [step, execOp, was_simple_copy_all_headers, copyHeadersLoop_state,
            inputHalted]
      | setLength n =>
        cases hg : w.outBegun <;> cases hf : w.finished <;>
          simp_all [step, execOp, was_simple_set_length, inputHalted]
      | outputBegin =>
        cases hf : w.finished <;> cases hb : w.outBegun <;>
          simp_all [step, execOp, was_simple_output_begin, inputHalted]
      | write n =>
        cases hf : w.finished <;> cases hs : w.outStopReceived <;>
          cases hb : w.outBegun <;> cases ha : w.outAnnounced <;>
            simp_all [step, execOp, was_simple_write, was_simple_output_begin,
              inputHalted] <;>
            split_ifs at hh2 <;> simp_all
      | read len ev =>
        cases ev <;> simp_all [step, execOp, was_simple_read, inputHalted]
      | splice m ev =>
        cases hf : w.finished <;> cases hs : w.outStopReceived <;>
          cases hb : w.outBegun <;> cases ev <;>
            simp_all [step, execOp, was_simple_splice, was_simple_output_begin,
              inputHalted]
      | inputClose =>
        cases hf : w.finished <;>
          simp_all [step, execOp, was_simple_input_close, inputHalted]
      | endRequest =>
        cases hf : w.finished <;> cases hv : lengthViolation w <;>
          cases hb : w.outBegun <;>
            simp_all [step, execOp, was_simple_end, inputHalted]
      | abortRequest =>
        cases hf : w.finished <;>
          simp_all [step, execOp, was_simple_abort, inputHalted]
      | metric name =>
        cases hf : w.finished <;>
          simp_all [step, execOp, was_simple_metric, inputHalted]

theorem run_inputHaltedEof (evs : List Event) : ∀ w : WasSimple, inputHaltedEof w →
    inputHaltedEof (run w evs).1 := by
  induction evs with
  | nil => intro w h; simpa [run] using h
  | cons e rest ih =>
    intro w h
    simpa [run] using ih (step w e).1 (step_inputHaltedEof w e h)

theorem applyHeaderPacket_inputHaltedEof (w : WasSimple) (p : CtrlPacket)
    (h : inputHaltedEof w) : inputHaltedEof (applyHeaderPacket w p) := by
  cases p <;> intro hh <;> simp_all [applyHeaderPacket, inputHalted, inputHaltedEof]

theorem acceptLoop_inputHaltedEof (pkts : List CtrlPacket) : ∀ w w' : WasSimple,
    inputHaltedEof w → acceptLoop w pkts = some w' → inputHaltedEof w' := by
  induction pkts with
  | nil =>
    intro w w' _ h
    simp [acceptLoop] at h
  | cons p rest ih =>
    intro w w' hw h
    cases p with
    | request =>
      simp only [acceptLoop, Option.some.injEq] at h
      subst h
      exact hw
    | stop => simp [acceptLoop] at h
    | abort => simp [acceptLoop] at h
    | nop => exact ih _ _ (applyHeaderPacket_inputHaltedEof _ _ hw) h
    | method m => exact ih _ _ (applyHeaderPacket_inputHaltedEof _ _ hw) h
    | uri s => exact ih _ _ (applyHeaderPacket_inputHaltedEof _ _ hw) h
    | scriptName s => exact ih _ _ (applyHeaderPacket_inputHaltedEof _ _ hw) h
    | pathInfo s => exact ih _ _ (applyHeaderPacket_inputHaltedEof _ _ hw) h
    | queryString s => exact ih _ _ (applyHeaderPacket_inputHaltedEof _ _ hw) h
    | header n v => exact ih _ _ (applyHeaderPacket_inputHaltedEof _ _ hw) h
    | parameter n v => exact ih _ _ (applyHeaderPacket_inputHaltedEof _ _ hw) h
    | remoteHost s => exact ih _ _ (applyHeaderPacket_inputHaltedEof _ _ hw) h
    | length n => exact ih _ _ (applyHeaderPacket_inputHaltedEof _ _ hw) h
    | data => exact ih _ _ (applyHeaderPacket_inputHaltedEof _ _ hw) h
    | metric => exact ih _ _ (applyHeaderPacket_inputHaltedEof _ _ hw) h
    | premature => exact ih _ _ (applyHeaderPacket_inputHaltedEof _ _ hw) h
    | noData => exact ih _ _ (applyHeaderPacket_inputHaltedEof _ _ hw) h

/-- C5: in every trace of a request, once PREMATURE has been received from
the peer or STOP has been sent by the engine, the request body input is at
EOF: every subsequent read returns 0. -/
theorem premature_or_stop_reads_zero (pkts : List CtrlPacket) (w0 : WasSimple)
    (hacc : was_simple_accept pkts = some w0) (evs evs2 : List Event)
    (hhalt : (run w0 evs).1.inPremature = true ∨ (run w0 evs).1.inStopSent = true)
    (len : Nat) (ev : ReadEvent) :
    (was_simple_read (run (run w0 evs).1 evs2).1 len ev).1 = 0 := by
  have h0 : inputHaltedEof initState := by
    intro hh
    rcases hh with h | h <;> simp [initState] at h
  have h1 : inputHaltedEof w0 := acceptLoop_inputHaltedEof pkts initState w0 h0 hacc
  have h2 : inputHaltedEof (run w0 evs).1 := run_inputHaltedEof evs w0 h1
  have heof : (run w0 evs).1.inEof = true := h2 hhalt
  have heof2 : (run (run w0 evs).1 evs2).1.inEof = true := run_inEof_monotone evs2 _ heof
  generalize (run (run w0 evs).1 evs2).1 = w2 at heof2 ⊢
  simp [was_simple_read, heof2]

/-- Witness for C5: after `input_close` sends STOP, a read returns 0. -/
theorem premature_or_stop_reads_zero_witness :
    was_simple_accept [.request] = some initState ∧
    (run initState [.call .inputClose]).1.inStopSent = true ∧
    (was_simple_read (run (run initState [.call .inputClose]).1 []).1 4 (.bytes 1)).1 = 0 :=
  ⟨rfl, rfl,
    premature_or_stop_reads_zero [.request] initState rfl [.call .inputClose] []
      (Or.inr rfl) 4 (.bytes 1)⟩

theorem exhaustIterator_mk (l : List (String × String)) : exhaustIterator ⟨l⟩ = l := by
  induction l with
  | nil => simp [exhaustIterator]
  | cons p rest ih => simp [exhaustIterator, ih]

theorem acceptLoop_headers (pkts : List CtrlPacket) : ∀ w w' : WasSimple,
    acceptLoop w pkts = some w' →
    w'.headers = w.headers ++ receivedHeaders pkts := by
  induction pkts with
  | nil =>
    intro w w' h
    simp [acceptLoop] at h
  | cons p rest ih =>
    intro w w' h
    cases p with
    | request =>
      simp only [acceptLoop, Option.some.injEq] at h
      subst h
      simp [receivedHeaders]
    | stop => simp [acceptLoop] at h
    | abort => simp [acceptLoop] at h
    | header n v =>
      have := ih _ _ h
      simpa [applyHeaderPacket, receivedHeaders] using this
    | nop => simpa [applyHeaderPacket, receivedHeaders] using ih _ _ h
    | method m => simpa [applyHeaderPacket, receivedHeaders] using ih _ _ h
    | uri s => simpa [applyHeaderPacket, receivedHeaders] using ih _ _ h
    | scriptName s => simpa [applyHeaderPacket, receivedHeaders] using ih _ _ h
    | pathInfo s => simpa [applyHeaderPacket, receivedHeaders] using ih _ _ h
    | queryString s => simpa [applyHeaderPacket, receivedHeaders] using ih _ _ h
    | parameter n v => simpa [applyHeaderPacket, receivedHeaders] using ih _ _ h
    | remoteHost s => simpa [applyHeaderPacket, receivedHeaders] using ih _ _ h
    | length n => simpa [applyHeaderPacket, receivedHeaders] using ih _ _ h
    | data => simpa [applyHeaderPacket, receivedHeaders] using ih _ _ h
    | metric => simpa [applyHeaderPacket, receivedHeaders] using ih _ _ h
    | premature => simpa [applyHeaderPacket, receivedHeaders] using ih _ _ h
    | noData => simpa [applyHeaderPacket, receivedHeaders] using ih _ _ h

/-- C8: for every request, exhausting the header iterator yields exactly
the (name, value) pairs of the HEADER packets received for that request, in
the same order. -/
theorem header_iterator_order (pkts : List CtrlPacket) (w : WasSimple)
    (hacc : was_simple_accept pkts = some w) :
    exhaustIterator (was_simple_get_header_iterator w) = receivedHeaders pkts := by
  have h := acceptLoop_headers pkts initState w hacc
  have h0 : initState.headers = [] := rfl
  rw [h0, List.nil_append] at h
  simp [was_simple_get_header_iterator, exhaustIterator_mk, h]

/-- Witness for C8: two HEADER packets before REQUEST are iterated in
arrival order. -/
theorem header_iterator_order_witness :
    was_simple_accept [.header "A" "1", .header "B" "2", .request] =
      some { headers := [("A", "1"), ("B", "2")] } ∧
    exhaustIterator (was_simple_get_header_iterator { headers := [("A", "1"), ("B", "2")] }) =
      receivedHeaders [.header "A" "1", .header "B" "2", .request] :=
  ⟨rfl, header_iterator_order [.header "A" "1", .header "B" "2", .request] _ rfl⟩

end Was
